import Mathlib

/-!
# Verification of the libconfd configuration-synchronization core

A shallow embedding of the libconfd sources (processor, template-resource
render pipeline, template function environment, backend watch clients)
together with theorems about the embedded operations.

Modelling conventions:
* Go strings are lists of characters (`GoStr`).
* The filesystem is a partial map from paths to file contents (`FS`).
* External effects (backend responses, command exit statuses, rename
  outcomes, PGP decoding) are passed in as explicit oracle parameters.
* Go `(value, error)` multi-returns are pairs with an `Option` error
  component; fallible helpers use `Except`.
-/

/-! ## Definitions -/

abbrev GoStr := List Char

def gostr (s : String) : GoStr := s.data

/-- The processor's two atomic flags (`runing`, `stoped`) from
`processor_old.go`. The wait-group is abstracted away: `goStop` reports
whether it waited on it. -/
structure ProcessorState where
  runing : Bool
  stoped : Bool
deriving DecidableEq, Repr

/-- Embeds `Processor.IsRunning` (processor_old.go line 15). -/
def IsRunning (p : ProcessorState) : Bool := p.runing

/-- Embeds `Processor.Stop` (processor_old.go lines 72-84): when the
processor is not running it returns at once; otherwise it sets the stop
flag, waits on the wait-group (the returned `Bool` records that wait
happened), then clears both flags. -/
def goStop (p : ProcessorState) : ProcessorState × Bool :=
  if ¬ IsRunning p then (p, false)
  else (⟨false, false⟩, true)

/-- Embeds the loop body of `Processor.runOnce` (processor_old.go lines
96-106): iterate over the per-resource outcomes, checking the stop flag
(`isStoped i` is the atomic read made before processing resource `i`,
indexed because the flag may change between reads), collecting every
error in order.  Returns the number of resources processed together with
the collected errors. -/
def runOnceAux {ε : Type} (isStoped : Nat → Bool) : Nat → List (Option ε) → Nat × List ε
  | _, [] => (0, [])
  | i, r :: rest =>
    if isStoped i then (0, [])
    else
      let next := runOnceAux isStoped (i + 1) rest
      (next.1 + 1, (match r with | some e => [e] | none => []) ++ next.2)

/-- Embeds `Processor.runOnce` (processor_old.go lines 86-112): run every
resource, then return `allErrors[0]` when any error was collected and
`nil` otherwise.  The first component is how many resources were
processed. -/
def goRunOnce {ε : Type} (isStoped : Nat → Bool) (outcomes : List (Option ε)) : Nat × Option ε :=
  let r := runOnceAux isStoped 0 outcomes
  (r.1, r.2.head?)

/-- The observable shape of a `WatchPrefix` call: it either returns
immediately with `(index, err)`, or blocks until the stop signal fires and
then returns `(index, err)`, or proceeds to network operations. -/
inductive WatchBehavior where
  | immediate (index : Nat) (err : Option GoStr)
  | blocksUntilStop (index : Nat) (err : Option GoStr)
  | network
deriving DecidableEq, Repr

/-- Embeds `_EtcdClient.WatchPrefix` (src/backends/etcdv3/etcdv.go lines
151-157): when `waitIndex == 0` it returns `(1, nil)` before creating any
client or touching the network; otherwise it proceeds to the etcd watch
(abstracted as `network`). -/
def etcdWatchPfx (waitIndex : Nat) : WatchBehavior :=
  if waitIndex = 0 then .immediate 1 none else .network

/-- Embeds `EnvClient.WatchPrefix` (the env client source, lines 185-188):
`<-stopChan; return 0, nil` — it blocks on the stop channel regardless of
`waitIndex` and returns `(0, nil)` once the signal fires. -/
def envWatchPfx (_waitIndex : Nat) : WatchBehavior :=
  .blocksUntilStop 0 none

/-- A key/value pair as exposed to templates. -/
structure KVPair where
  Key : GoStr
  Value : GoStr
deriving DecidableEq, Repr

/-- The names registered unconditionally into the func map by
`NewTemplateFuncMap` (lines 42-83 of the template-function source). -/
def plainFuncNames : List GoStr :=
  [gostr "exists", gostr "ls", gostr "lsdir", gostr "get", gostr "gets",
   gostr "getv", gostr "getvs",
   gostr "base", gostr "split", gostr "json", gostr "jsonArray", gostr "dir",
   gostr "map", gostr "getenv", gostr "join", gostr "datetime",
   gostr "toUpper", gostr "toLower", gostr "contains", gostr "replace",
   gostr "trimSuffix", gostr "lookupIP", gostr "lookupSRV",
   gostr "fileExists", gostr "base64Encode", gostr "base64Decode",
   gostr "parseBool", gostr "reverse", gostr "sortByLength",
   gostr "sortKVByLength", gostr "add", gostr "sub", gostr "div",
   gostr "mod", gostr "mul", gostr "seq", gostr "atoi"]

/-- The names registered only when a PGP private key is configured
(lines 86-91). -/
def cryptFuncNames : List GoStr :=
  [gostr "cget", gostr "cgets", gostr "cgetv", gostr "cgetvs"]

/-- Embeds the name set built by `NewTemplateFuncMap` (lines 36-94): the
plain functions always, the crypt functions iff `len(pgpPrivateKey) > 0`. -/
def newTemplateFuncMapNames (pgpPrivateKey : GoStr) : List GoStr :=
  plainFuncNames ++ (if pgpPrivateKey ≠ [] then cryptFuncNames else [])

/-- Modelled from the spec: Go `text/template` parsing is not in src/;
per the spec ("Without the key configured, template parse fails with
function cgetv not defined"), parsing succeeds iff every function name the
template references is defined in the func map. -/
def tmplParseOk (referenced : List GoStr) (funcNames : List GoStr) : Bool :=
  referenced.all (fun f => funcNames.contains f)

/-- Embeds `TemplateFunc.Cget` (lines 132-142): delegate to `get`; on
success decode the value with `secconfDecode` (the external PGP decoder,
passed as the oracle `decode`); a decoding failure is returned as the
error component. -/
def goCget {ε : Type} (getRes : KVPair × Option ε) (decode : GoStr → Except ε GoStr) :
    KVPair × Option ε :=
  match getRes with
  | (kv, some e) => (kv, some e)
  | (kv, none) =>
    match decode kv.Value with
    | .ok b => ({ kv with Value := b }, none)
    | .error e => (kv, some e)

/-- Embeds `TemplateFunc.Cgetv` (lines 158-168): delegate to `getv`; on
success decode the value; a decoding failure is returned as the error
component alongside the undecoded value. -/
def goCgetv {ε : Type} (getvRes : GoStr × Option ε) (decode : GoStr → Except ε GoStr) :
    GoStr × Option ε :=
  match getvRes with
  | (v, some e) => (v, some e)
  | (v, none) =>
    match decode v with
    | .ok b => (b, none)
    | .error e => (v, some e)

/-- The decoding loop of `TemplateFunc.Cgets` (lines 147-153): decode each
value in order; the first failure aborts with that error (the Go code then
returns a nil slice). -/
def cgetsLoop {ε : Type} (decode : GoStr → Except ε GoStr) : List KVPair → Except ε (List KVPair)
  | [] => .ok []
  | kv :: rest =>
    match decode kv.Value with
    | .error e => .error e
    | .ok b =>
      match cgetsLoop decode rest with
      | .error e => .error e
      | .ok l => .ok ({ kv with Value := b } :: l)

/-- Embeds `TemplateFunc.Cgets` (lines 144-156): delegate to `gets`; on
success decode every value, returning `([], err)` (the nil slice together
with the error) as soon as one decode fails. -/
def goCgets {ε : Type} (getsRes : List KVPair × Option ε) (decode : GoStr → Except ε GoStr) :
    List KVPair × Option ε :=
  match getsRes with
  | (kvs, some e) => (kvs, some e)
  | (kvs, none) =>
    match cgetsLoop decode kvs with
    | .error e => ([], some e)
    | .ok l => (l, none)

/-- The decoding loop of `TemplateFunc.Cgetvs` (lines 173-179). -/
def cgetvsLoop {ε : Type} (decode : GoStr → Except ε GoStr) : List GoStr → Except ε (List GoStr)
  | [] => .ok []
  | v :: rest =>
    match decode v with
    | .error e => .error e
    | .ok b =>
      match cgetvsLoop decode rest with
      | .error e => .error e
      | .ok l => .ok (b :: l)

/-- Embeds `TemplateFunc.Cgetvs` (lines 170-182): delegate to `getvs`; on
success decode every value, returning `([], err)` (the nil slice together
with the error) as soon as one decode fails. -/
def goCgetvs {ε : Type} (getvsRes : List GoStr × Option ε) (decode : GoStr → Except ε GoStr) :
    List GoStr × Option ε :=
  match getvsRes with
  | (vs, some e) => (vs, some e)
  | (vs, none) =>
    match cgetvsLoop decode vs with
    | .error e => ([], some e)
    | .ok l => (l, none)

/-- The element-wise decoding that `Cgets` applies on the all-success path. -/
def decodeKV {ε : Type} (decode : GoStr → Except ε GoStr) (kv : KVPair) : KVPair :=
  match decode kv.Value with
  | .ok b => { kv with Value := b }
  | .error _ => kv

/-- A filesystem: a partial map from paths to file contents. -/
abbrev FS := GoStr → Option GoStr

/-- Write (create or overwrite) a file. -/
def fsWrite (p : GoStr) (c : GoStr) (fs : FS) : FS :=
  fun q => if q = p then some c else fs q

/-- Remove a file (removing an absent file is a no-op). -/
def fsRemove (p : GoStr) (fs : FS) : FS :=
  fun q => if q = p then none else fs q

/-- The fields of `TemplateResource` that `sync` consults. -/
structure SyncResource where
  dest : GoStr
  checkCmd : GoStr
  reloadCmd : GoStr
  noop : Bool
  syncOnly : Bool
  keepStageFile : Bool

/-- Outcome of the `os.Rename(staged, dest)` call in `sync`. -/
inductive RenameOutcome where
  | renamed
  | busy
  | failedOther
deriving DecidableEq, Repr

/-- Oracle for the external effects `sync` depends on: the exit status of
the check and reload commands (`true` = `check()`/`reload()` returned an
error) and the rename outcome. -/
structure SyncEnv where
  checkErr : Bool
  reloadErr : Bool
  rename : RenameOutcome
  writeErr : Bool

inductive SyncError where
  | checkFailed
  | renameFailed
  | readFailed
  | writeFailed
  | reloadFailed
deriving DecidableEq, Repr

/-- Modelled from the spec: `sameConfig` is not under src/; per the spec
("Compare staged vs dest for byte equality; if dest is missing, treat as
differs"), it is true iff both files exist with equal bytes. -/
def sameConfig (staged dest : GoStr) (fs : FS) : Bool :=
  match fs staged, fs dest with
  | some a, some b => a = b
  | _, _ => false

/-- The `defer os.Remove(staged)` registered at the top of `sync`
(resource.go lines 229-233): it runs on every exit path, but only when
`keepStageFile` is unset. -/
def syncFinish (staged : GoStr) (keep : Bool) (r : Option SyncError × FS) :
    Option SyncError × FS :=
  if keep then r else (r.1, fsRemove staged r.2)

/-- The body of `sync` up to the deferred stage-file removal
(resource.go lines 235-290): compare staged and dest; return early in noop
mode; when out of sync run the check command (unless sync-only or no
check_cmd), rename staged onto dest — falling back, on a device-busy
rename failure, to reading the staged bytes and writing them to dest —
and finally run the reload command (unless sync-only or no reload_cmd). -/
def syncBody (t : SyncResource) (staged : GoStr) (env : SyncEnv) (fs : FS) :
    Option SyncError × FS :=
  let ok := sameConfig staged t.dest fs
  if t.noop then (none, fs)
  else if ok then (none, fs)
  else if (¬ t.syncOnly ∧ t.checkCmd ≠ []) ∧ env.checkErr then (some .checkFailed, fs)
  else
    match env.rename, fs staged with
    | .renamed, some c =>
      let fs1 := fsWrite t.dest c (fsRemove staged fs)
      if (¬ t.syncOnly ∧ t.reloadCmd ≠ []) ∧ env.reloadErr then (some .reloadFailed, fs1)
      else (none, fs1)
    | .busy, some c =>
      if env.writeErr then (some .writeFailed, fs)
      else
        let fs1 := fsWrite t.dest c fs
        if (¬ t.syncOnly ∧ t.reloadCmd ≠ []) ∧ env.reloadErr then (some .reloadFailed, fs1)
        else (none, fs1)
    | .busy, none => (some .readFailed, fs)
    | .renamed, none => (some .renameFailed, fs)
    | .failedOther, _ => (some .renameFailed, fs)

/-- Embeds `TemplateResource.sync` (resource.go lines 227-291): the body
followed by the deferred stage-file removal. -/
def goSync (t : SyncResource) (staged : GoStr) (env : SyncEnv) (fs : FS) :
    Option SyncError × FS :=
  syncFinish staged t.keepStageFile (syncBody t staged env fs)

/-- Oracle for the external effects `createStageFile` depends on: whether
the source template exists, whether `ioutil.TempFile` succeeds and which
fresh path it picks, whether template parsing succeeds, and the bytes
`tmpl.Execute` produces (`none` = execution error). -/
structure StageEnv where
  srcExists : Bool
  parseOk : Bool
  tempOk : Bool
  tempPath : GoStr
  execResult : Option GoStr

inductive StageError where
  | missingTemplate
  | parseFailed
  | tempFailed
  | execFailed
deriving DecidableEq, Repr

/-- Embeds `TemplateResource.createStageFile` (resource.go lines 185-220):
fail if the source template is missing, fails to parse, or the temp file
cannot be created; otherwise the temp file is created in dest's directory,
the template is executed into it — on execution error the temp file is
closed and removed — and on success it becomes the stage file (chmod and
chown do not change contents). -/
def createStageFile (senv : StageEnv) (fs : FS) : Option StageError × FS :=
  if ¬ senv.srcExists then (some .missingTemplate, fs)
  else if ¬ senv.parseOk then (some .parseFailed, fs)
  else if ¬ senv.tempOk then (some .tempFailed, fs)
  else
    match senv.execResult with
    | none => (some .execFailed, fsRemove senv.tempPath (fsWrite senv.tempPath [] fs))
    | some c => (none, fsWrite senv.tempPath c fs)

inductive RenderError where
  | stage (e : StageError)
  | sync (e : SyncError)
deriving DecidableEq, Repr

/-- The stage-then-sync tail of `TemplateResource.process` (resource.go
lines 350-364): `createStageFile` followed, on success, by `sync` on the
staged path (`setFileMode` and `setVars` precede these and do not touch
the filesystem). -/
def renderStageSync (t : SyncResource) (senv : StageEnv) (env : SyncEnv) (fs : FS) :
    Option RenderError × FS :=
  match createStageFile senv fs with
  | (some e, fs1) => (some (.stage e), fs1)
  | (none, fs1) =>
    match goSync t senv.tempPath env fs1 with
    | (some e, fs2) => (some (.sync e), fs2)
    | (none, fs2) => (none, fs2)

/-- Split a character list on `'/'` (the component decomposition used by
Go's `path.Clean`). -/
def splitSlash : GoStr → List GoStr
  | [] => [[]]
  | c :: rest =>
    if c = '/' then [] :: splitSlash rest
    else
      match splitSlash rest with
      | g :: gs => (c :: g) :: gs
      | [] => [[c]]

/-- Modelled from the spec: the KV snapshot normalizes keys on insert
("ensure leading /, collapse //, strip trailing / unless root"); libconfd's
KVStore implementation is not under src/. -/
def kvNormalize (k : GoStr) : GoStr :=
  '/' :: List.intercalate ['/'] ((splitSlash k).filter (fun c => c ≠ []))

/-- Modelled from the spec: the per-resource KV snapshot (an in-memory map
from normalized keys to values), represented by its lookup function. -/
def KVStore := GoStr → Option GoStr

/-- Modelled from the spec: `purge()` empties the snapshot. -/
def kvPurge : KVStore := fun _ => none

/-- Modelled from the spec: `set(k, v)` normalizes `k` and inserts or
overwrites. -/
def kvSet (st : KVStore) (k v : GoStr) : KVStore :=
  fun q => if q = kvNormalize k then some v else st q

/-- Modelled from the spec: `get(k)` returns the value stored for the key
or not-found; keys in the snapshot are always normalized (spec section 3),
so the lookup key is normalized as well. -/
def kvGet (st : KVStore) (k : GoStr) : Option GoStr :=
  st (kvNormalize k)

/-- Embeds Go `strings.TrimPrefix(s, p)`: drop `p` from the front of `s`
when it is a prefix, otherwise return `s` unchanged. -/
def goTrimPfx (s p : GoStr) : GoStr :=
  if p.isPrefixOf s then s.drop p.length else s

/-- The component processing of Go `path.Clean` on a rooted path: empty
components and `"."` are dropped, `".."` pops the previous component (at
the root it is discarded). -/
def cleanComps (cs : List GoStr) : List GoStr :=
  cs.foldl (fun acc c =>
    if c = [] ∨ c = ['.'] then acc
    else if c = ['.', '.'] then acc.dropLast
    else acc ++ [c]) []

/-- Embeds Go `path.Join("/", s)`, which is `path.Clean("//" + s)` — the
joined string is always rooted, so `Clean` yields `"/"` followed by the
cleaned components. -/
def goPathJoinRoot (s : GoStr) : GoStr :=
  '/' :: List.intercalate ['/'] (cleanComps (splitSlash ('/' :: '/' :: s)))

/-- Embeds the store-updating part of `TemplateResource.setVars`
(resource.go lines 160-179): after `GetValues` returns `result`, purge the
snapshot, then insert every returned pair `(k, v)` under
`path.Join("/", strings.TrimPrefix(k, prefix))`. -/
def setVars (pfx : GoStr) (result : List (GoStr × GoStr)) : KVStore :=
  result.foldl (fun st kv => kvSet st (goPathJoinRoot (goTrimPfx kv.1 pfx)) kv.2) kvPurge

/-- A suffix in canonical key form: a fixed point of both the Go
`path.Join("/", ·)` cleaning and the snapshot normalization (leading `/`,
no empty, `"."` or `".."` components, no trailing `/`). -/
def GoodSuffix (s : GoStr) : Prop :=
  goPathJoinRoot s = s ∧ kvNormalize s = s

instance (s : GoStr) : Decidable (GoodSuffix s) := by
  unfold GoodSuffix
  infer_instance

/-- The key a returned backend pair is stored under by `setVars`. -/
def storedKey (pfx k : GoStr) : GoStr :=
  kvNormalize (goPathJoinRoot (goTrimPfx k pfx))

/-- Lookup in the snapshot `setVars` builds, later insertions winning. -/
def lookupStored (pfx q : GoStr) : List (GoStr × GoStr) → Option GoStr
  | [] => none
  | kv :: R =>
    match lookupStored pfx q R with
    | some v => some v
    | none => if q = storedKey pfx kv.1 then some kv.2 else none

/-- Go strconv's `lower(c) = c | ('x' - 'X')`. -/
def lowerChar (c : Char) : Char := Char.ofNat (c.toNat ||| 32)

inductive NumError where
  | invalid
  | tooBig
deriving DecidableEq, Repr

/-- The digit classification of `ParseUint`'s loop: `'0'..'9'` and (via
`lower`) letters; `invalid` elsewhere.  (`invalid` is Go's `ErrSyntax`,
`tooBig` is Go's `ErrRange`.) -/
def digitVal (c : Char) : Option Nat :=
  if '0' ≤ c ∧ c ≤ '9' then some (c.toNat - '0'.toNat)
  else if 'a' ≤ lowerChar c ∧ lowerChar c ≤ 'z' then some ((lowerChar c).toNat - 'a'.toNat + 10)
  else none

/-- The base auto-detection of `strconv.ParseUint(s, 0, _)`: `0b`/`0o`/`0x`
prefixes (requiring at least one character after them, Go's `len(s) >= 3`),
a bare leading `0` meaning octal, else decimal; returns the detected base
and the remaining digit characters. -/
def goBaseDetect : GoStr → Nat × GoStr
  | '0' :: c :: rest =>
    if lowerChar c = 'b' ∧ rest ≠ [] then (2, rest)
    else if lowerChar c = 'o' ∧ rest ≠ [] then (8, rest)
    else if lowerChar c = 'x' ∧ rest ≠ [] then (16, rest)
    else (8, c :: rest)
  | ['0'] => (8, [])
  | s => (10, s)

/-- The accumulation loop of `ParseUint`: underscores are skipped (their
placement is validated by `underscoreOK` at the end), invalid digits are
syntax errors, and the running value is checked against `cutoff`
(`maxUint64/base + 1`) and `maxVal` (`2^bitSize - 1`) as in Go; the
returned flag records whether an underscore was seen.  (Go's additional
wrap-around check `n1 < n` cannot fire over `Nat` and is subsumed by the
`maxVal` comparison for the 32-bit instantiation used here.) -/
def parseLoop (base cutoff maxVal : Nat) : GoStr → Nat → Bool → Except NumError (Nat × Bool)
  | [], n, us => .ok (n, us)
  | c :: rest, n, us =>
    if c = '_' then parseLoop base cutoff maxVal rest n true
    else
      match digitVal c with
      | none => .error .invalid
      | some d =>
        if base ≤ d then .error .invalid
        else if cutoff ≤ n then .error .tooBig
        else if maxVal < n * base + d then .error .tooBig
        else parseLoop base cutoff maxVal rest (n * base + d) us

/-- The scanning loop of Go `strconv.underscoreOK`: `saw` is the class of
the previous character (`'^'` start, `'0'` digit or base prefix, `'_'`
underscore, `'!'` other). -/
def underscoreOKLoop (hex : Bool) : GoStr → Char → Bool
  | [], saw => saw ≠ '_'
  | c :: rest, saw =>
    if ('0' ≤ c ∧ c ≤ '9') ∨ (hex ∧ 'a' ≤ lowerChar c ∧ lowerChar c ≤ 'f') then
      underscoreOKLoop hex rest '0'
    else if c = '_' then
      if saw ≠ '0' then false else underscoreOKLoop hex rest '_'
    else if saw = '_' then false
    else underscoreOKLoop hex rest '!'

/-- Embeds Go `strconv.underscoreOK`: underscores may appear only between
a base prefix and a digit or between successive digits. -/
def underscoreOK (s : GoStr) : Bool :=
  let s1 := match s with
    | c :: rest => if c = '-' ∨ c = '+' then rest else c :: rest
    | [] => []
  match s1 with
  | '0' :: c :: rest =>
    if lowerChar c = 'b' ∨ lowerChar c = 'o' ∨ lowerChar c = 'x' then
      underscoreOKLoop (lowerChar c = 'x') rest '0'
    else underscoreOKLoop false s1 '^'
  | _ => underscoreOKLoop false s1 '^'

/-- Embeds `strconv.ParseUint(s, 0, 32)` as called by `setFileMode`: empty
strings are syntax errors; the base is auto-detected; the digits are
accumulated with Go's cutoff and 32-bit max checks; a string containing
underscores is a syntax error unless `underscoreOK` accepts it. -/
def goParseUint0Bit32 (s : GoStr) : Except NumError Nat :=
  if s = [] then .error .invalid
  else
    match parseLoop (goBaseDetect s).1 ((2 ^ 64 - 1) / (goBaseDetect s).1 + 1)
        (2 ^ 32 - 1) (goBaseDetect s).2 0 false with
    | .error e => .error e
    | .ok (n, us) => if us ∧ ¬ underscoreOK s then .error .invalid else .ok n

/-- Embeds `TemplateResource.setFileMode` (resource.go lines 367-386):
empty `Mode` inherits the existing dest file's mode (`destMode` is `none`
when dest does not exist) or defaults to `0644`; a non-empty `Mode` is
parsed with `strconv.ParseUint(mode, 0, 32)` and becomes the file mode. -/
def setFileMode (mode : GoStr) (destMode : Option Nat) : Except NumError Nat :=
  if mode = [] then
    .ok (match destMode with | some m => m | none => 0o644)
  else goParseUint0Bit32 mode

/-- The value of a digit string in a base, starting from an accumulator,
skipping underscores; `none` on any character that is not a valid digit of
the base. -/
def digitsValSkip (base : Nat) : GoStr → Nat → Option Nat
  | [], n => some n
  | c :: rest, n =>
    if c = '_' then digitsValSkip base rest n
    else
      match digitVal c with
      | none => none
      | some d => if base ≤ d then none else digitsValSkip base rest (n * base + d)

/-- The syntax stated by the claim, written from the claim's words: a
valid unsigned integer is `0x`-prefixed hex, `0`-prefixed octal, or
decimal — nothing else, and no bound on the value. -/
def claimedParse (s : GoStr) : Option Nat :=
  match s with
  | [] => none
  | '0' :: c :: rest =>
    if lowerChar c = 'x' then
      if rest = [] then none else digitsValSkip 16 rest 0
    else digitsValSkip 8 (c :: rest) 0
  | ['0'] => some 0
  | s => digitsValSkip 10 s 0

/-- The amended parsing specification, following the amended claim's
words: Go's base auto-detection (`0x`/`0o`/`0b` prefixes, bare leading `0`
octal, else decimal), underscores permitted where Go's `underscoreOK`
allows them, and the resulting digit-string value; the 32-bit range bound
is stated separately in the theorem. -/
def specGoUInt (s : GoStr) : Option Nat :=
  if s = [] then none
  else
    if (goBaseDetect s).2.any (fun c => c = '_') ∧ ¬ underscoreOK s then none
    else digitsValSkip (goBaseDetect s).1 (goBaseDetect s).2 0

/-! ## Theorems -/

theorem runOnceAux_no_stop {ε : Type} (isStoped : Nat → Bool)
    (h : ∀ i, isStoped i = false) :
    ∀ (outcomes : List (Option ε)) (start : Nat),
      runOnceAux isStoped start outcomes = (outcomes.length, outcomes.filterMap id) := by
  intro outcomes
  induction outcomes with
  | nil => intro start; rfl
  | cons r rest ih =>
    intro start
    simp only [runOnceAux, h start, Bool.false_eq_true, if_false, ih (start + 1),
      List.length_cons, List.filterMap_cons]
    cases r <;> simp

/-- C7: in onetime mode (with no stop request), a failing resource does not
prevent the remaining resources from being rendered — every outcome in the
list is processed — and the returned value is the first error that
occurred (`none` when every resource succeeded). -/
theorem c7_runOnce_processes_all_and_returns_first_error {ε : Type}
    (isStoped : Nat → Bool) (outcomes : List (Option ε))
    (h : ∀ i, isStoped i = false) :
    goRunOnce isStoped outcomes = (outcomes.length, (outcomes.filterMap id).head?) := by
  simp only [goRunOnce, runOnceAux_no_stop isStoped h outcomes 0]

theorem c7_runOnce_witness :
    goRunOnce (ε := Nat) (fun _ => false) [none, some 7, none, some 9] = (4, some 7) := by
  have h := c7_runOnce_processes_all_and_returns_first_error
    (ε := Nat) (fun _ => false) [none, some 7, none, some 9] (fun _ => rfl)
  simpa using h

/-- C9: calling `Stop` on a processor whose running flag is not set returns
immediately without waiting on the wait-group (the `Bool` component is
`false`) and leaves the state — in particular both flags — unchanged. -/
theorem c9_stop_not_running_is_noop (p : ProcessorState)
    (h : IsRunning p = false) :
    goStop p = (p, false) ∧
      (p.stoped = false → (goStop p).1.runing = false ∧ (goStop p).1.stoped = false) := by
  have hr : p.runing = false := h
  constructor
  · simp [goStop, h]
  · intro hs
    simp [goStop, IsRunning, hr, hs]

theorem c9_stop_witness :
    goStop ⟨false, false⟩ = (⟨false, false⟩, false) :=
  (c9_stop_not_running_is_noop ⟨false, false⟩ rfl).1

/-- C4, counterexample: the claim says every backend driver's
`WatchPrefix` returns `(1, nil)` immediately when `waitIndex = 0`; the env
client instead blocks on the stop signal and then returns `(0, nil)`. -/
theorem c4_env_watch_not_immediate :
    envWatchPfx 0 = WatchBehavior.blocksUntilStop 0 none ∧
      envWatchPfx 0 ≠ WatchBehavior.immediate 1 none := by
  decide

/-- C4, amended: the etcdv3 driver's `WatchPrefix` returns `(1, nil)`
immediately — before any network operation — whenever `waitIndex = 0`,
while the env driver blocks until the stop signal fires and then returns
`(0, nil)`. -/
theorem c4_watch_zero_index (w : Nat) (h : w = 0) :
    etcdWatchPfx w = WatchBehavior.immediate 1 none ∧
      envWatchPfx w = WatchBehavior.blocksUntilStop 0 none := by
  subst h; decide

theorem c4_watch_zero_index_witness :
    etcdWatchPfx 0 = WatchBehavior.immediate 1 none ∧
      envWatchPfx 0 = WatchBehavior.blocksUntilStop 0 none :=
  c4_watch_zero_index 0 rfl

theorem cgetsLoop_error_of_mem {ε : Type} (decode : GoStr → Except ε GoStr)
    (kvs : List KVPair) (kv : KVPair) (e : ε)
    (hmem : kv ∈ kvs) (herr : decode kv.Value = .error e) :
    ∃ e', cgetsLoop decode kvs = .error e' := by
  induction kvs with
  | nil => cases hmem
  | cons hd tl ih =>
    rcases List.mem_cons.mp hmem with h | h
    · subst h
      exact ⟨e, by simp [cgetsLoop, herr]⟩
    · rcases ih h with ⟨e', he'⟩
      simp only [cgetsLoop]
      cases hhd : decode hd.Value with
      | error e0 => exact ⟨e0, rfl⟩
      | ok b => exact ⟨e', by simp [he']⟩

theorem cgetvsLoop_error_of_mem {ε : Type} (decode : GoStr → Except ε GoStr)
    (vs : List GoStr) (v : GoStr) (e : ε)
    (hmem : v ∈ vs) (herr : decode v = .error e) :
    ∃ e', cgetvsLoop decode vs = .error e' := by
  induction vs with
  | nil => cases hmem
  | cons hd tl ih =>
    rcases List.mem_cons.mp hmem with h | h
    · subst h
      exact ⟨e, by simp [cgetvsLoop, herr]⟩
    · rcases ih h with ⟨e', he'⟩
      simp only [cgetvsLoop]
      cases hhd : decode hd with
      | error e0 => exact ⟨e0, rfl⟩
      | ok b => exact ⟨e', by simp [he']⟩

theorem cgetsLoop_ok_of_all {ε : Type} (decode : GoStr → Except ε GoStr)
    (kvs : List KVPair)
    (h : ∀ kv ∈ kvs, ∃ b, decode kv.Value = .ok b) :
    cgetsLoop decode kvs = .ok (kvs.map (decodeKV decode)) := by
  induction kvs with
  | nil => rfl
  | cons hd tl ih =>
    rcases h hd (List.mem_cons_self hd tl) with ⟨b, hb⟩
    have htl := ih (fun kv hkv => h kv (List.mem_cons_of_mem hd hkv))
    simp [cgetsLoop, hb, htl, decodeKV]

/-- C8: the crypt functions `cget`, `cgets`, `cgetv`, `cgetvs` are present
in the func map iff a non-empty PGP private key is configured; without the
key a template referencing `cgetv` fails at parse time; with the key each
function delegates to its plain counterpart and decodes the returned value
portion, propagating any decoding failure as an error. -/
theorem c8_crypt_funcs (pgp : GoStr) :
    ((∀ n ∈ cryptFuncNames, n ∈ newTemplateFuncMapNames pgp) ↔ pgp ≠ []) ∧
    (pgp = [] → tmplParseOk [gostr "cgetv"] (newTemplateFuncMapNames pgp) = false) ∧
    (∀ (kv : KVPair) (decode : GoStr → Except Nat GoStr) (b : GoStr),
      decode kv.Value = .ok b → goCget (kv, none) decode = ({ kv with Value := b }, none)) ∧
    (∀ (kv : KVPair) (decode : GoStr → Except Nat GoStr) (e : Nat),
      decode kv.Value = .error e → goCget (kv, none) decode = (kv, some e)) ∧
    (∀ (v : GoStr) (decode : GoStr → Except Nat GoStr) (b : GoStr),
      decode v = .ok b → goCgetv (v, none) decode = (b, none)) ∧
    (∀ (v : GoStr) (decode : GoStr → Except Nat GoStr) (e : Nat),
      decode v = .error e → goCgetv (v, none) decode = (v, some e)) ∧
    (∀ (kvs : List KVPair) (decode : GoStr → Except Nat GoStr),
      (∀ kv ∈ kvs, ∃ b, decode kv.Value = .ok b) →
      goCgets (kvs, none) decode = (kvs.map (decodeKV decode), none)) ∧
    (∀ (kvs : List KVPair) (decode : GoStr → Except Nat GoStr) (kv : KVPair) (e : Nat),
      kv ∈ kvs → decode kv.Value = .error e →
      ∃ e', goCgets (kvs, none) decode = ([], some e')) ∧
    (∀ (vs : List GoStr) (decode : GoStr → Except Nat GoStr) (v : GoStr) (e : Nat),
      v ∈ vs → decode v = .error e →
      ∃ e', goCgetvs (vs, none) decode = ([], some e')) := by
  refine ⟨?_, ?_, ?_, ?_, ?_, ?_, ?_, ?_, ?_⟩
  · constructor
    · intro h hpgp
      have hc := h (gostr "cget") (by simp [cryptFuncNames])
      rw [newTemplateFuncMapNames, if_neg (by simp [hpgp])] at hc
      exact absurd hc (by decide)
    · intro hpgp n hn
      simp only [newTemplateFuncMapNames, if_pos hpgp, List.mem_append]
      exact Or.inr hn
  · intro hpgp
    subst hpgp
    decide
  · intro kv decode b hb
    simp [goCget, hb]
  · intro kv decode e he
    simp [goCget, he]
  · intro v decode b hb
    simp [goCgetv, hb]
  · intro v decode e he
    simp [goCgetv, he]
  · intro kvs decode h
    simp only [goCgets, cgetsLoop_ok_of_all decode kvs h]
  · intro kvs decode kv e hmem herr
    rcases cgetsLoop_error_of_mem decode kvs kv e hmem herr with ⟨e', he'⟩
    exact ⟨e', by simp [goCgets, he']⟩
  · intro vs decode v e hmem herr
    rcases cgetvsLoop_error_of_mem decode vs v e hmem herr with ⟨e', he'⟩
    exact ⟨e', by simp [goCgetvs, he']⟩

theorem c8_crypt_funcs_witness :
    goCget (⟨gostr "/k", gostr "enc"⟩, none)
        (fun v => if v = gostr "enc" then .ok (gostr "plain") else .error (0 : Nat)) =
      (⟨gostr "/k", gostr "plain"⟩, none) ∧
    goCgetv (gostr "enc", none)
        (fun v => if v = gostr "enc" then .error (3 : Nat) else .ok v) =
      (gostr "enc", some 3) := by
  constructor
  · exact (c8_crypt_funcs (gostr "key")).2.2.1 ⟨gostr "/k", gostr "enc"⟩
      (fun v => if v = gostr "enc" then .ok (gostr "plain") else .error (0 : Nat))
      (gostr "plain") (by rfl)
  · exact (c8_crypt_funcs (gostr "key")).2.2.2.2.2.1 (gostr "enc")
      (fun v => if v = gostr "enc" then .error (3 : Nat) else .ok v) 3 (by rfl)

/-- C10: when PGP decoding fails for any value in the matched set, `Cgets`
returns a nil `KVPair` slice together with the error and `Cgetvs` returns
a nil string slice together with the error — a partially decoded sequence
is never handed back to the template. -/
theorem c10_cgets_cgetvs_nil_on_decode_failure
    (kvs : List KVPair) (vs : List GoStr) (decode : GoStr → Except Nat GoStr) :
    ((∃ kv ∈ kvs, ∃ e, decode kv.Value = .error e) →
      ∃ e', goCgets (kvs, none) decode = ([], some e')) ∧
    ((∃ v ∈ vs, ∃ e, decode v = .error e) →
      ∃ e', goCgetvs (vs, none) decode = ([], some e')) := by
  constructor
  · rintro ⟨kv, hmem, e, herr⟩
    rcases cgetsLoop_error_of_mem decode kvs kv e hmem herr with ⟨e', he'⟩
    exact ⟨e', by simp [goCgets, he']⟩
  · rintro ⟨v, hmem, e, herr⟩
    rcases cgetvsLoop_error_of_mem decode vs v e hmem herr with ⟨e', he'⟩
    exact ⟨e', by simp [goCgetvs, he']⟩

theorem c10_cgets_cgetvs_witness :
    (∃ e', goCgets ([⟨gostr "/a", gostr "good"⟩, ⟨gostr "/b", gostr "bad"⟩], none)
        (fun v => if v = gostr "bad" then .error (5 : Nat) else .ok v) = ([], some e')) ∧
    (∃ e', goCgetvs ([gostr "good", gostr "bad"], none)
        (fun v => if v = gostr "bad" then .error (5 : Nat) else .ok v) = ([], some e')) := by
  have h := c10_cgets_cgetvs_nil_on_decode_failure
    [⟨gostr "/a", gostr "good"⟩, ⟨gostr "/b", gostr "bad"⟩]
    [gostr "good", gostr "bad"]
    (fun v => if v = gostr "bad" then .error (5 : Nat) else .ok v)
  refine ⟨h.1 ⟨⟨gostr "/b", gostr "bad"⟩, ?_, 5, by rfl⟩,
          h.2 ⟨gostr "bad", ?_, 5, by rfl⟩⟩
  · exact List.mem_cons_of_mem _ (List.mem_cons_self _ _)
  · exact List.mem_cons_of_mem _ (List.mem_cons_self _ _)

/-- C1: with `noop = false`, `sync_only = false` and a non-empty
`check_cmd`, if the staged and destination configs differ (so the check
command actually runs) and the check command exits non-zero, then `sync`
returns the check-failed error and the destination file's bytes are
exactly what they were before — the rename (and the write fallback) is
never attempted.  `staged ≠ dest` holds for every real render because the
stage path is `dirname(dest)/."basename(dest)"<unique>`. -/
theorem c1_check_failure_preserves_dest (t : SyncResource) (staged : GoStr)
    (env : SyncEnv) (fs : FS)
    (hnoop : t.noop = false) (hso : t.syncOnly = false) (hcmd : t.checkCmd ≠ [])
    (hdiff : sameConfig staged t.dest fs = false) (hchk : env.checkErr = true)
    (hne : staged ≠ t.dest) :
    (goSync t staged env fs).1 = some SyncError.checkFailed ∧
      (goSync t staged env fs).2 t.dest = fs t.dest := by
  have hbody : syncBody t staged env fs = (some .checkFailed, fs) := by
    simp [syncBody, hnoop, hso, hcmd, hdiff, hchk]
  cases hk : t.keepStageFile with
  | true => simp [goSync, hbody, syncFinish, hk]
  | false =>
    simp only [goSync, hbody, syncFinish, hk, Bool.false_eq_true, if_false]
    refine ⟨trivial, ?_⟩
    simp [fsRemove, (Ne.symm hne)]

theorem c1_check_failure_witness :
    (goSync ⟨gostr "/etc/a.conf", gostr "chk", [], false, false, false⟩
        (gostr "/etc/.a.conf1") ⟨true, false, .renamed, false⟩
        (fun q => if q = gostr "/etc/a.conf" then some (gostr "old")
                  else if q = gostr "/etc/.a.conf1" then some (gostr "new") else none)).1
      = some SyncError.checkFailed ∧
    (goSync ⟨gostr "/etc/a.conf", gostr "chk", [], false, false, false⟩
        (gostr "/etc/.a.conf1") ⟨true, false, .renamed, false⟩
        (fun q => if q = gostr "/etc/a.conf" then some (gostr "old")
                  else if q = gostr "/etc/.a.conf1" then some (gostr "new") else none)).2
        (gostr "/etc/a.conf")
      = some (gostr "old") := by
  have h := c1_check_failure_preserves_dest
    ⟨gostr "/etc/a.conf", gostr "chk", [], false, false, false⟩
    (gostr "/etc/.a.conf1") ⟨true, false, .renamed, false⟩
    (fun q => if q = gostr "/etc/a.conf" then some (gostr "old")
              else if q = gostr "/etc/.a.conf1" then some (gostr "new") else none)
    rfl rfl (by decide) (by decide) rfl (by decide)
  exact ⟨h.1, by rw [h.2]; rfl⟩

/-- C5: with `noop = true`, `sync` returns success and the destination
file is neither created nor modified, whatever the staged content, the
check command, or the reload command.  `staged ≠ dest` holds for every
real render because of the stage path naming scheme. -/
theorem c5_noop_never_touches_dest (t : SyncResource) (staged : GoStr)
    (env : SyncEnv) (fs : FS)
    (hnoop : t.noop = true) (hne : staged ≠ t.dest) :
    (goSync t staged env fs).1 = none ∧
      (goSync t staged env fs).2 t.dest = fs t.dest := by
  have hbody : syncBody t staged env fs = (none, fs) := by
    simp [syncBody, hnoop]
  cases hk : t.keepStageFile with
  | true => simp [goSync, hbody, syncFinish, hk]
  | false =>
    simp only [goSync, hbody, syncFinish, hk, Bool.false_eq_true, if_false]
    refine ⟨trivial, ?_⟩
    simp [fsRemove, (Ne.symm hne)]

theorem c5_noop_witness :
    (goSync ⟨gostr "/etc/a.conf", gostr "chk", gostr "rld", true, false, false⟩
        (gostr "/etc/.a.conf1") ⟨true, true, .renamed, false⟩
        (fun q => if q = gostr "/etc/.a.conf1" then some (gostr "new") else none)).1
      = none ∧
    (goSync ⟨gostr "/etc/a.conf", gostr "chk", gostr "rld", true, false, false⟩
        (gostr "/etc/.a.conf1") ⟨true, true, .renamed, false⟩
        (fun q => if q = gostr "/etc/.a.conf1" then some (gostr "new") else none)).2
        (gostr "/etc/a.conf")
      = none := by
  have h := c5_noop_never_touches_dest
    ⟨gostr "/etc/a.conf", gostr "chk", gostr "rld", true, false, false⟩
    (gostr "/etc/.a.conf1") ⟨true, true, .renamed, false⟩
    (fun q => if q = gostr "/etc/.a.conf1" then some (gostr "new") else none)
    rfl (by decide)
  exact ⟨h.1, by rw [h.2]; rfl⟩

/-- C3, counterexample: a render with `keep_stage_file = true` whose check
command fails leaves the stage file on disk even though the render failed,
because `sync` only registers the deferred `os.Remove(staged)` when
`keepStageFile` is unset — contradicting "if the render fails at any later
step, the stage file no longer exists on disk afterwards (regardless of
keep_stage_file)". -/
theorem c3_failed_render_keeps_stage_file :
    (renderStageSync ⟨gostr "/etc/a.conf", gostr "chk", [], false, false, true⟩
        ⟨true, true, true, gostr "/etc/.a.conf1", some (gostr "new")⟩
        ⟨true, false, .renamed, false⟩
        (fun q => if q = gostr "/etc/a.conf" then some (gostr "old") else none)).1
      = some (RenderError.sync .checkFailed) ∧
    (renderStageSync ⟨gostr "/etc/a.conf", gostr "chk", [], false, false, true⟩
        ⟨true, true, true, gostr "/etc/.a.conf1", some (gostr "new")⟩
        ⟨true, false, .renamed, false⟩
        (fun q => if q = gostr "/etc/a.conf" then some (gostr "old") else none)).2
        (gostr "/etc/.a.conf1")
      = some (gostr "new") := by
  constructor <;> rfl

theorem goSync_removes_stage_without_keep (t : SyncResource) (staged : GoStr)
    (env : SyncEnv) (fs : FS) (hk : t.keepStageFile = false) :
    (goSync t staged env fs).2 staged = none := by
  simp [goSync, syncFinish, hk, fsRemove]

theorem goSync_keep_stage_fate (t : SyncResource) (staged : GoStr)
    (env : SyncEnv) (fs : FS) (c : GoStr)
    (hk : t.keepStageFile = true) (hstage : fs staged = some c)
    (hne : staged ≠ t.dest) :
    (goSync t staged env fs).2 staged = some c ∨
      ((goSync t staged env fs).2 staged = none ∧ (goSync t staged env fs).2 t.dest = some c) := by
  cases hr : env.rename <;>
    simp only [goSync, syncFinish, hk, if_true, syncBody, hstage, hr]
  · split
    · exact Or.inl hstage
    · split
      · exact Or.inl hstage
      · split
        · exact Or.inl hstage
        · split
          · exact Or.inr ⟨by simp [fsWrite, fsRemove, hne], by simp [fsWrite]⟩
          · exact Or.inr ⟨by simp [fsWrite, fsRemove, hne], by simp [fsWrite]⟩
  · split
    · exact Or.inl hstage
    · split
      · exact Or.inl hstage
      · split
        · exact Or.inl hstage
        · split
          · exact Or.inl hstage
          · split
            · exact Or.inl (by simp [fsWrite, hne, hstage])
            · exact Or.inl (by simp [fsWrite, hne, hstage])
  · split
    · exact Or.inl hstage
    · split
      · exact Or.inl hstage
      · split
        · exact Or.inl hstage
        · exact Or.inl hstage

theorem createStageFile_error_no_stage (senv : StageEnv) (fs : FS) (e : StageError)
    (fs1 : FS) (h : createStageFile senv fs = (some e, fs1))
    (hfresh : fs senv.tempPath = none) :
    fs1 senv.tempPath = none := by
  unfold createStageFile at h
  split at h
  · cases h; exact hfresh
  · split at h
    · cases h; exact hfresh
    · split at h
      · cases h; exact hfresh
      · split at h
        · cases h; simp [fsRemove]
        · cases h

theorem createStageFile_ok_stage (senv : StageEnv) (fs : FS)
    (fs1 : FS) (h : createStageFile senv fs = (none, fs1)) :
    ∃ c, senv.execResult = some c ∧ fs1 = fsWrite senv.tempPath c fs := by
  unfold createStageFile at h
  split at h
  · cases h
  · split at h
    · cases h
    · split at h
      · cases h
      · split at h
        · cases h
        · next c heq =>
          cases h
          exact ⟨c, heq, rfl⟩

/-- C3, amended: for every render in which the stage-file step ran on a
fresh stage path: when `keep_stage_file` is unset the stage file never
survives (success or failure); a failure inside `createStageFile` itself
(missing template, parse error, temp-file error, execution error) leaves
no stage file regardless of `keep_stage_file`; and when `keep_stage_file`
is set and the pipeline reached `sync` — whether `sync` succeeded or
failed — the stage file either still holds the rendered bytes or was
renamed onto `dest` (which then holds those bytes); the renamed case
arises both on success and on a reload failure after the successful
rename (resource.go lines 256, 279-283). -/
theorem c3_stage_file_lifecycle (t : SyncResource) (senv : StageEnv)
    (env : SyncEnv) (fs : FS)
    (hfresh : fs senv.tempPath = none) (hne : senv.tempPath ≠ t.dest) :
    (t.keepStageFile = false →
      (renderStageSync t senv env fs).2 senv.tempPath = none) ∧
    (∀ e, (renderStageSync t senv env fs).1 = some (RenderError.stage e) →
      (renderStageSync t senv env fs).2 senv.tempPath = none) ∧
    (t.keepStageFile = true →
      ((renderStageSync t senv env fs).1 = none ∨
        ∃ se, (renderStageSync t senv env fs).1 = some (RenderError.sync se)) →
      ∃ c, senv.execResult = some c ∧
        ((renderStageSync t senv env fs).2 senv.tempPath = some c ∨
          ((renderStageSync t senv env fs).2 senv.tempPath = none ∧
            (renderStageSync t senv env fs).2 t.dest = some c))) := by
  rcases hcr : createStageFile senv fs with ⟨r0, fs1⟩
  cases r0 with
  | some e0 =>
    have hrs : renderStageSync t senv env fs = (some (.stage e0), fs1) := by
      simp [renderStageSync, hcr]
    have hfs1 : fs1 senv.tempPath = none :=
      createStageFile_error_no_stage senv fs e0 fs1 hcr hfresh
    refine ⟨fun _ => by rw [hrs]; exact hfs1, fun e _ => by rw [hrs]; exact hfs1, ?_⟩
    intro _ hor
    rcases hor with h | ⟨se, hse⟩
    · rw [hrs] at h; cases h
    · rw [hrs] at hse
      cases hse
  | none =>
    rcases createStageFile_ok_stage senv fs fs1 hcr with ⟨c, hexec, hfs1⟩
    have hstage : fs1 senv.tempPath = some c := by
      rw [hfs1]; simp [fsWrite]
    rcases hg : goSync t senv.tempPath env fs1 with ⟨r1, fs2⟩
    have hfate := goSync_keep_stage_fate t senv.tempPath env fs1 c
    have hrm := goSync_removes_stage_without_keep t senv.tempPath env fs1
    cases r1 with
    | none =>
      have hrs : renderStageSync t senv env fs = (none, fs2) := by
        rw [renderStageSync, hcr]
        show (match goSync t senv.tempPath env fs1 with
          | (some e, fs2) => (some (RenderError.sync e), fs2)
          | (none, fs2) => (none, fs2)) = _
        rw [hg]
      refine ⟨?_, ?_, ?_⟩
      · intro hk
        rw [hrs]
        have := hrm hk
        rw [hg] at this
        exact this
      · intro e he
        rw [hrs] at he
        cases he
      · intro hk _
        refine ⟨c, hexec, ?_⟩
        have := hfate hk hstage hne
        rw [hg] at this
        rw [hrs]
        exact this
    | some e1 =>
      have hrs : renderStageSync t senv env fs = (some (.sync e1), fs2) := by
        rw [renderStageSync, hcr]
        show (match goSync t senv.tempPath env fs1 with
          | (some e, fs2) => (some (RenderError.sync e), fs2)
          | (none, fs2) => (none, fs2)) = _
        rw [hg]
      refine ⟨?_, ?_, ?_⟩
      · intro hk
        rw [hrs]
        have := hrm hk
        rw [hg] at this
        exact this
      · intro e he
        rw [hrs] at he
        simp at he
      · intro hk _
        refine ⟨c, hexec, ?_⟩
        have := hfate hk hstage hne
        rw [hg] at this
        rw [hrs]
        exact this

theorem c3_stage_file_lifecycle_witness :
    (renderStageSync ⟨gostr "/etc/a.conf", gostr "chk", [], false, false, true⟩
        ⟨true, true, true, gostr "/etc/.a.conf1", some (gostr "new")⟩
        ⟨true, false, .renamed, false⟩
        (fun q => if q = gostr "/etc/a.conf" then some (gostr "old") else none)).2
        (gostr "/etc/.a.conf1")
      = some (gostr "new") := by
  have h := c3_stage_file_lifecycle
    ⟨gostr "/etc/a.conf", gostr "chk", [], false, false, true⟩
    ⟨true, true, true, gostr "/etc/.a.conf1", some (gostr "new")⟩
    ⟨true, false, .renamed, false⟩
    (fun q => if q = gostr "/etc/a.conf" then some (gostr "old") else none)
    rfl (by decide)
  rcases h.2.2 rfl (Or.inr ⟨.checkFailed, rfl⟩) with ⟨c, hc, hfate⟩
  have hc' : c = gostr "new" := by
    have := hc
    injection this with h0
    exact h0.symm
  subst hc'
  rcases hfate with h1 | h2
  · exact h1
  · exact absurd h2.1 (by rw [show (renderStageSync ⟨gostr "/etc/a.conf", gostr "chk", [], false, false, true⟩
        ⟨true, true, true, gostr "/etc/.a.conf1", some (gostr "new")⟩
        ⟨true, false, .renamed, false⟩
        (fun q => if q = gostr "/etc/a.conf" then some (gostr "old") else none)).2
        (gostr "/etc/.a.conf1") = some (gostr "new") from rfl]; simp)

theorem kvNormalize_slash_cons (s : GoStr) : kvNormalize ('/' :: s) = kvNormalize s := by
  simp [kvNormalize, splitSlash]

theorem goTrimPfx_append (p s : GoStr) : goTrimPfx (p ++ s) p = s := by
  simp [goTrimPfx, List.isPrefixOf_iff_prefix, List.prefix_append, List.drop_left]

theorem foldl_kvSet_eq_lookupStored (pfx q : GoStr) (R : List (GoStr × GoStr)) :
    ∀ st : KVStore,
      (R.foldl (fun st kv => kvSet st (goPathJoinRoot (goTrimPfx kv.1 pfx)) kv.2) st) q =
        match lookupStored pfx q R with
        | some v => some v
        | none => st q := by
  induction R with
  | nil => intro st; rfl
  | cons kv R ih =>
    intro st
    rw [List.foldl_cons, ih]
    show _ = (match lookupStored pfx q (kv :: R) with
      | some v => some v
      | none => st q)
    rw [lookupStored]
    cases lookupStored pfx q R with
    | some v => rfl
    | none =>
      show (if q = kvNormalize (goPathJoinRoot (goTrimPfx kv.1 pfx)) then some kv.2 else st q) = _
      simp only [storedKey]
      by_cases hq : q = kvNormalize (goPathJoinRoot (goTrimPfx kv.1 pfx))
      · rw [if_pos hq, if_pos hq]
      · rw [if_neg hq, if_neg hq]

theorem storedKey_append (P s : GoStr) (hs : GoodSuffix s) :
    storedKey P (P ++ s) = s := by
  rw [storedKey, goTrimPfx_append, hs.1, hs.2]

theorem lookupStored_mem (pfx q : GoStr) (R : List (GoStr × GoStr)) (v : GoStr)
    (h : lookupStored pfx q R = some v) :
    ∃ kv ∈ R, kv.2 = v ∧ q = storedKey pfx kv.1 := by
  induction R with
  | nil => cases h
  | cons kv R ih =>
    rw [lookupStored] at h
    cases hr : lookupStored pfx q R with
    | some v' =>
      rw [hr] at h
      cases h
      rcases ih hr with ⟨kv', hm, h2, h3⟩
      exact ⟨kv', List.mem_cons_of_mem _ hm, h2, h3⟩
    | none =>
      rw [hr] at h
      by_cases hq : q = storedKey pfx kv.1
      · rw [if_pos hq] at h
        injection h with h4
        exact ⟨kv, List.mem_cons_self kv R, h4, hq⟩
      · rw [if_neg hq] at h
        cases h

theorem lookupStored_of_mem (P : GoStr) (R : List (GoStr × GoStr)) (s v : GoStr)
    (hgood : ∀ kv ∈ R, ∃ s', kv.1 = P ++ s' ∧ GoodSuffix s')
    (hnodup : (R.map Prod.fst).Nodup)
    (hmem : (P ++ s, v) ∈ R) (hs : GoodSuffix s) :
    lookupStored P s R = some v := by
  induction R with
  | nil => cases hmem
  | cons kv R ih =>
    have hnodup' : (kv.1 :: R.map Prod.fst).Nodup := by
      rw [List.map_cons] at hnodup; exact hnodup
    rcases List.mem_cons.mp hmem with heq | hmem'
    · rw [lookupStored]
      cases hr : lookupStored P s R with
      | some v' =>
        rcases lookupStored_mem P s R v' hr with ⟨kv', hm', _, h3'⟩
        rcases hgood kv' (List.mem_cons_of_mem _ hm') with ⟨s'', h1'', hg''⟩
        rw [h1'', storedKey_append P s'' hg''] at h3'
        subst h3'
        have hkey : kv.1 ∈ R.map Prod.fst := by
          rw [← heq]
          simp only [← h1'']
          exact List.mem_map_of_mem Prod.fst hm'
        exact absurd hkey (List.nodup_cons.mp hnodup').1
      | none =>
        rw [← heq, storedKey_append P s hs, if_pos rfl]
    · rw [lookupStored]
      rw [ih (fun kv' hk => hgood kv' (List.mem_cons_of_mem _ hk))
        (List.nodup_cons.mp hnodup').2 hmem']

/-- C2: after `setVars` with prefix `P` and backend result `R` (whose keys
are `P` followed by canonical suffixes, pairwise distinct as map keys),
the snapshot contains exactly the pairs obtained by stripping `P` and
rejoining under `"/"`: `get("/" + s)` returns `v` iff the backend returned
`(P + s, v)`, and every key of the snapshot arises from some returned
pair — the snapshot was purged first. -/
theorem c2_setVars_snapshot (P : GoStr) (R : List (GoStr × GoStr))
    (hgood : ∀ kv ∈ R, ∃ s, kv.1 = P ++ s ∧ GoodSuffix s)
    (hnodup : (R.map Prod.fst).Nodup) :
    (∀ s v, GoodSuffix s →
      (kvGet (setVars P R) ('/' :: s) = some v ↔ (P ++ s, v) ∈ R)) ∧
    (∀ q v, setVars P R q = some v → GoodSuffix q ∧ (P ++ q, v) ∈ R) := by
  have hval : ∀ q, setVars P R q =
      (match lookupStored P q R with
       | some v => some v
       | none => none) := by
    intro q
    rw [setVars, foldl_kvSet_eq_lookupStored P q R kvPurge]
    cases lookupStored P q R <;> rfl
  constructor
  · intro s v hs
    have hkey : kvNormalize ('/' :: s) = s := by
      rw [kvNormalize_slash_cons, hs.2]
    rw [kvGet, hkey, hval s]
    constructor
    · intro h
      have hls : lookupStored P s R = some v := by
        cases hr : lookupStored P s R with
        | some v' => rw [hr] at h; cases h; rfl
        | none => rw [hr] at h; cases h
      rcases lookupStored_mem P s R v hls with ⟨kv, hm, h2, h3⟩
      rcases hgood kv hm with ⟨s', h1', hg'⟩
      rw [h1', storedKey_append P s' hg'] at h3
      subst h3
      have : kv = (P ++ s, v) := by
        rcases kv with ⟨k1, k2⟩
        simp only at h1' h2
        rw [h1', h2]
      rw [← this]
      exact hm
    · intro hmem
      rw [lookupStored_of_mem P R s v hgood hnodup hmem hs]
  · intro q v h
    rw [hval q] at h
    have hls : lookupStored P q R = some v := by
      cases hr : lookupStored P q R with
      | some v' => rw [hr] at h; cases h; rfl
      | none => rw [hr] at h; cases h
    rcases lookupStored_mem P q R v hls with ⟨kv, hm, h2, h3⟩
    rcases hgood kv hm with ⟨s', h1', hg'⟩
    rw [h1', storedKey_append P s' hg'] at h3
    subst h3
    refine ⟨hg', ?_⟩
    have : kv = (P ++ q, v) := by
      rcases kv with ⟨k1, k2⟩
      simp only at h1' h2
      rw [h1', h2]
    rw [← this]
    exact hm

theorem c2_setVars_witness :
    kvGet (setVars (gostr "/app") [(gostr "/app/port", gostr "8080")])
      ('/' :: gostr "/port") = some (gostr "8080") := by
  have h := c2_setVars_snapshot (gostr "/app") [(gostr "/app/port", gostr "8080")]
    (by
      intro kv hkv
      rcases List.mem_singleton.mp hkv with rfl
      exact ⟨gostr "/port", by decide, by decide⟩)
    (by decide)
  exact (h.1 (gostr "/port") (gostr "8080") (by decide)).mpr (by decide)

/-- C6, counterexample: `"4294967296"` (2^32) is a valid decimal unsigned
integer — `claimedParse`, written from the claim's stated syntax, accepts
it — yet `setFileMode` fails on it, because `strconv.ParseUint(mode, 0, 32)`
also enforces a 32-bit bound; so setFileMode does not fail exactly on
syntactically invalid strings. -/
theorem c6_mode_parse_counterexample :
    claimedParse (gostr "4294967296") = some 4294967296 ∧
      setFileMode (gostr "4294967296") none = .error NumError.tooBig := by
  constructor <;> rfl

theorem digitsValSkip_le (base : Nat) (hb : 1 ≤ base) :
    ∀ (ds : GoStr) (acc n : Nat), digitsValSkip base ds acc = some n → acc ≤ n := by
  intro ds
  induction ds with
  | nil =>
    intro acc n h
    rw [digitsValSkip] at h
    injection h with h
    omega
  | cons c rest ih =>
    intro acc n h
    rw [digitsValSkip] at h
    by_cases hc : c = '_'
    · rw [if_pos hc] at h
      exact ih acc n h
    · rw [if_neg hc] at h
      cases hd : digitVal c with
      | none => rw [hd] at h; cases h
      | some d =>
        rw [hd] at h
        simp only [] at h
        by_cases hbd : base ≤ d
        · rw [if_pos hbd] at h; cases h
        · rw [if_neg hbd] at h
          have h1 := ih _ n h
          have h2 : acc * 1 ≤ acc * base := Nat.mul_le_mul_left acc hb
          omega

theorem parseLoop_ok_iff (base cutoff maxVal : Nat) (hb : 1 ≤ base)
    (hcm : maxVal < cutoff) :
    ∀ (ds : GoStr) (acc : Nat) (us0 : Bool), acc ≤ maxVal →
      ∀ (n : Nat) (us : Bool),
      (parseLoop base cutoff maxVal ds acc us0 = .ok (n, us) ↔
        (digitsValSkip base ds acc = some n ∧ n ≤ maxVal ∧
          us = (us0 || ds.any (fun c => c = '_')))) := by
  intro ds
  induction ds with
  | nil =>
    intro acc us0 hacc n us
    rw [parseLoop, digitsValSkip]
    constructor
    · intro h
      cases h
      exact ⟨rfl, hacc, by simp⟩
    · rintro ⟨h1, h2, h3⟩
      injection h1 with h1
      subst h1
      simp at h3
      subst h3
      rfl
  | cons c rest ih =>
    intro acc us0 hacc n us
    rw [parseLoop, digitsValSkip]
    by_cases hc : c = '_'
    · rw [if_pos hc, if_pos hc]
      have hany : ((c :: rest).any (fun c => c = '_')) = true := by
        simp [hc]
      rw [hany, ih acc true hacc n us]
      constructor
      · rintro ⟨h1, h2, h3⟩
        refine ⟨h1, h2, ?_⟩
        simp at h3 ⊢
        exact h3
      · rintro ⟨h1, h2, h3⟩
        refine ⟨h1, h2, ?_⟩
        simp at h3 ⊢
        exact h3
    · rw [if_neg hc, if_neg hc]
      have hany : ((c :: rest).any (fun c => c = '_')) = (rest.any (fun c => c = '_')) := by
        simp [hc]
      cases hd : digitVal c with
      | none =>
        constructor
        · intro h; cases h
        · rintro ⟨h1, _, _⟩; cases h1
      | some d =>
        simp only []
        by_cases hbd : base ≤ d
        · rw [if_pos hbd, if_pos hbd]
          constructor
          · intro h; cases h
          · rintro ⟨h1, _, _⟩; cases h1
        · rw [if_neg hbd, if_neg hbd]
          by_cases hcut : cutoff ≤ acc
          · rw [if_pos hcut]
            constructor
            · intro h; cases h
            · rintro ⟨h1, h2, _⟩
              have hle := digitsValSkip_le base hb rest _ n h1
              have hstep : acc * 1 ≤ acc * base := Nat.mul_le_mul_left acc hb
              have hchain : maxVal < n := by
                have : acc ≤ acc * base + d := by omega
                omega
              omega
          · rw [if_neg hcut]
            by_cases hmax : maxVal < acc * base + d
            · rw [if_pos hmax]
              constructor
              · intro h; cases h
              · rintro ⟨h1, h2, _⟩
                have hle := digitsValSkip_le base hb rest _ n h1
                omega
            · rw [if_neg hmax]
              rw [hany]
              exact ih (acc * base + d) us0 (Nat.not_lt.mp hmax) n us

theorem goBaseDetect_base (s : GoStr) :
    (goBaseDetect s).1 = 2 ∨ (goBaseDetect s).1 = 8 ∨
      (goBaseDetect s).1 = 10 ∨ (goBaseDetect s).1 = 16 := by
  unfold goBaseDetect
  split
  · split
    · exact Or.inl rfl
    · split
      · exact Or.inr (Or.inl rfl)
      · split
        · exact Or.inr (Or.inr (Or.inr rfl))
        · exact Or.inr (Or.inl rfl)
  · exact Or.inr (Or.inl rfl)
  · exact Or.inr (Or.inr (Or.inl rfl))

theorem goParseUint_ok_iff (s : GoStr) (hs : s ≠ []) (n : Nat) :
    goParseUint0Bit32 s = .ok n ↔ (specGoUInt s = some n ∧ n < 2 ^ 32) := by
  have hb1 : 1 ≤ (goBaseDetect s).1 := by
    rcases goBaseDetect_base s with h | h | h | h <;> rw [h] <;> decide
  have hcm : (2 ^ 32 - 1 : Nat) < (2 ^ 64 - 1) / (goBaseDetect s).1 + 1 := by
    rcases goBaseDetect_base s with h | h | h | h <;> rw [h] <;> decide
  rw [goParseUint0Bit32, specGoUInt, if_neg hs, if_neg hs]
  have hiff := parseLoop_ok_iff (goBaseDetect s).1 ((2 ^ 64 - 1) / (goBaseDetect s).1 + 1)
    (2 ^ 32 - 1) hb1 hcm (goBaseDetect s).2 0 false (Nat.zero_le _)
  cases hp : parseLoop (goBaseDetect s).1 ((2 ^ 64 - 1) / (goBaseDetect s).1 + 1)
      (2 ^ 32 - 1) (goBaseDetect s).2 0 false with
  | error e =>
    simp only []
    constructor
    · intro h; cases h
    · rintro ⟨h1, h2⟩
      by_cases hcond : ((goBaseDetect s).2.any (fun c => c = '_') = true) ∧
          ¬ underscoreOK s = true
      · rw [if_pos hcond] at h1
        cases h1
      · rw [if_neg hcond] at h1
        have := (hiff n ((goBaseDetect s).2.any (fun c => c = '_'))).mpr
          ⟨h1, by omega, by simp⟩
        rw [hp] at this
        cases this
  | ok p =>
    rcases p with ⟨n', us⟩
    simp only []
    rcases (hiff n' us).mp hp with ⟨hv, hle, hus⟩
    simp only [Bool.false_or] at hus
    by_cases hcond : (us = true) ∧ ¬ underscoreOK s = true
    · rw [if_pos hcond]
      have hcond' : ((goBaseDetect s).2.any (fun c => c = '_') = true) ∧
          ¬ underscoreOK s = true := ⟨hus ▸ hcond.1, hcond.2⟩
      rw [if_pos hcond']
      constructor
      · intro h; cases h
      · rintro ⟨h1, _⟩; cases h1
    · rw [if_neg hcond]
      have hcond' : ¬ (((goBaseDetect s).2.any (fun c => c = '_') = true) ∧
          ¬ underscoreOK s = true) := by
        intro hcc
        exact hcond ⟨hus.symm ▸ hcc.1, hcc.2⟩
      rw [if_neg hcond']
      constructor
      · intro h
        injection h with h
        subst h
        exact ⟨hv, by omega⟩
      · rintro ⟨h1, h2⟩
        rw [hv] at h1
        injection h1 with h1
        rw [h1]

/-- C6, amended: if `Mode` is empty, `setFileMode` uses the existing dest
file's mode when dest exists and `0644` otherwise; if `Mode` is non-empty,
it parses the string with Go's base auto-detection (`0x` hex, `0o` octal,
`0b` binary, bare leading `0` octal, otherwise decimal, with underscores
allowed as digit separators) and fails exactly when the string is not a
valid unsigned integer in that syntax or its value does not fit in 32
bits. -/
theorem c6_setFileMode_characterization (mode : GoStr) (destMode : Option Nat) :
    (mode = [] → ∀ m, destMode = some m → setFileMode mode destMode = .ok m) ∧
    (mode = [] → destMode = none → setFileMode mode destMode = .ok 0o644) ∧
    (mode ≠ [] → ∀ n,
      (setFileMode mode destMode = .ok n ↔ specGoUInt mode = some n ∧ n < 2 ^ 32)) := by
  refine ⟨?_, ?_, ?_⟩
  · intro h m hm
    unfold setFileMode
    rw [if_pos h, hm]
  · intro h hm
    unfold setFileMode
    rw [if_pos h, hm]
  · intro h n
    unfold setFileMode
    rw [if_neg h]
    exact goParseUint_ok_iff mode h n

theorem c6_setFileMode_witness :
    setFileMode (gostr "0644") none = .ok 420 ∧
      setFileMode [] (some 384) = .ok 384 := by
  constructor
  · exact ((c6_setFileMode_characterization (gostr "0644") none).2.2
      (by decide) 420).mpr ⟨by rfl, by decide⟩
  · exact (c6_setFileMode_characterization [] (some 384)).1 rfl 384 rfl
